import Mathlib

/-!
Shallow embedding of `asreview/balance_strategies/triple_balance.py` and
verification of its specification.

Modelling conventions:

* Python ints are `ℤ`; Python floats are idealised as `ℝ` (exact arithmetic,
  as the spec's formulas are stated over reals).
* numpy integer arrays are `List ℤ`; `np.append` is `++`; boolean-mask
  selection (`arr[np.where(cond(arr))]`) is `List.filter`.
* Python code that can raise (`ZeroDivisionError` from `/`, `math.log` on a
  non-positive argument, `0.0 ** negative`) is embedded in `Except String`;
  an `.error` value models an uncaught exception propagating to the caller.
  Array indexing out of range (numpy `IndexError`) is not modelled: index
  lists are taken to address existing positions, which holds on every input
  considered below; `aget` totalises indexing with numpy's negative-index
  wrap-around and a default of `0` out of range.
* `np.random.shuffle` draws from the caller's random generator.  It is
  embedded as an oracle `σ : ℕ → List ℤ → List ℤ` giving the permuted result
  of each shuffle call site (site 0: `rand_idx`, site 1: `max_idx`,
  site `2+i`: the mini-epoch `i` concatenation); theorems that depend on
  shuffling being a permutation hypothesise that `σ` preserves length.
* The Python dict `query_kwargs["query_src"]` is an association list
  `List (String × List ℤ)` in insertion order with (as for a dict) distinct
  keys; `fit_kwargs` is likewise an association list `List (String × ℤ)`.
* The external collaborator `full_sample` (imported from
  `asreview.balance_strategies.full_sampling`, not part of this file's
  source) is a parameter of the embedded `triple_balance`, so theorems about
  the fallback hold for every possible fallback implementation.
* `triple_balance` mutates nothing in this embedding; the caller-visible
  final values of the two mutable arguments (`fit_kwargs` and the provenance
  map `query_src`) are returned alongside the `(X[all_idx], y[all_idx])`
  result so that the frame conditions of the source are statable.
-/

/-- numpy-style indexing into a list of labels/features: negative indices wrap
around; out-of-range access (which numpy would turn into an `IndexError`, not
exercised by any input considered here) is totalised to `0`. -/
def aget (l : List ℤ) (i : ℤ) : ℤ :=
  if i < 0 then l.getD (l.length + i).toNat 0 else l.getD i.toNat 0

/-- numpy fancy indexing `l[idx]`: select `aget l i` for each `i` in `idx`. -/
def fancy (l : List ℤ) (idx : List ℤ) : List ℤ := idx.map (aget l)

/-- Python slice `l[a:b]` (step 1): negative bounds count from the end, and
bounds are clamped to the valid range. -/
def pyslice (l : List ℤ) (a b : ℤ) : List ℤ :=
  let n : ℤ := l.length
  let a' : ℤ := if a < 0 then max 0 (n + a) else min a n
  let b' : ℤ := if b < 0 then max 0 (n + b) else min b n
  (l.take b'.toNat).drop a'.toNat

/-- `_rand_max_weight(n_one, n_zero_rand, n_zero_max, n_samples, b, alpha)`:
`frac = (n_one+n_zero_max)/(n_samples-n_zero_rand)`;
`ratio = b * exp(-log(b) * frac**alpha)`.
The guards model the exceptions of the source: `ZeroDivisionError` when
`n_samples == n_zero_rand`, `math.log`'s domain error when `b <= 0`, and
`ZeroDivisionError` from `0.0 ** alpha` with `alpha < 0`.  (A negative `frac`
with fractional `alpha` would give a complex value in Python; no considered
input reaches it, and the real `rpow` stands in for `**`.) -/
noncomputable def _rand_max_weight (n_one n_zero_rand n_zero_max n_samples : ℤ)
    (b alpha : ℝ) : Except String ℝ :=
  if (n_samples : ℝ) - (n_zero_rand : ℝ) = 0 then .error "ZeroDivisionError"
  else
    let frac : ℝ := ((n_one : ℝ) + (n_zero_max : ℝ)) / ((n_samples : ℝ) - (n_zero_rand : ℝ))
    if b ≤ 0 then .error "math domain error"
    else if frac = 0 ∧ alpha < 0 then .error "ZeroDivisionError"
    else .ok (b * Real.exp (-Real.log b * frac ^ alpha))

/-- `_one_zero_ratio(n_one, n_zero, beta, delta)`:
`ratio = (1-delta)*(n_one/n_zero)**beta + delta`.
Guards as in the source: `ZeroDivisionError` when `n_zero == 0`, and
`ZeroDivisionError` from `0.0 ** beta` with `beta < 0`. -/
noncomputable def _one_zero_ratio (n_one n_zero : ℤ) (beta delta : ℝ) :
    Except String ℝ :=
  if n_zero = 0 then .error "ZeroDivisionError"
  else if (n_one : ℝ) / (n_zero : ℝ) = 0 ∧ beta < 0 then .error "ZeroDivisionError"
  else .ok ((1 - delta) * (((n_one : ℝ) / (n_zero : ℝ)) ^ beta) + delta)

/-- `_get_triple_dist`: per-mini-epoch target counts
`(n_one_epoch, n_zero_rand_epoch, n_zero_max_epoch)`.  Mirrors the source:
`n_zero_epoch = ceil(n_one/oz_ratio)` (a `ZeroDivisionError` when
`oz_ratio == 0.0`), then, when `n_zero_max` is truthy,
`n_zero_rand_epoch = ceil(rand_max_wr * (n_zero_epoch/(rand_max_wr + n_zero_max/n_zero_rand)))`
(with the two division guards), else `n_zero_rand_epoch = n_zero_epoch`;
finally `n_zero_max_epoch = n_zero_epoch - n_zero_rand_epoch`. -/
noncomputable def _get_triple_dist (n_one n_zero_rand n_zero_max n_samples : ℤ)
    (rand_max_b rand_max_alpha one_zero_beta one_zero_delta : ℝ) :
    Except String (ℤ × ℤ × ℤ) :=
  let n_zero : ℤ := n_zero_rand + n_zero_max
  match _one_zero_ratio n_one n_zero one_zero_beta one_zero_delta with
  | .error e => .error e
  | .ok oz_ratio =>
    if oz_ratio = 0 then .error "ZeroDivisionError"
    else
      let n_zero_epoch : ℤ := ⌈(n_one : ℝ) / oz_ratio⌉
      match _rand_max_weight n_one n_zero_rand n_zero_max n_samples
          rand_max_b rand_max_alpha with
      | .error e => .error e
      | .ok rand_max_wr =>
        if n_zero_max ≠ 0 then
          if n_zero_rand = 0 then .error "ZeroDivisionError"
          else if rand_max_wr + (n_zero_max : ℝ) / (n_zero_rand : ℝ) = 0 then
            .error "ZeroDivisionError"
          else
            let q : ℝ := (n_zero_epoch : ℝ) / (rand_max_wr + (n_zero_max : ℝ) / (n_zero_rand : ℝ))
            let n_zero_rand_epoch : ℤ := ⌈rand_max_wr * q⌉
            .ok (n_one, n_zero_rand_epoch, n_zero_epoch - n_zero_rand_epoch)
        else
          .ok (n_one, n_zero_epoch, n_zero_epoch - n_zero_epoch)

/-- `_n_mini_epoch(n_samples, epoch_size)`: `0` if either input is
non-positive, else `ceil(n_samples/epoch_size)`. -/
noncomputable def _n_mini_epoch (n_samples epoch_size : ℤ) : ℤ :=
  if n_samples ≤ 0 ∨ epoch_size ≤ 0 then 0
  else ⌈(n_samples : ℝ) / (epoch_size : ℝ)⌉

/-- The overall mini-epoch count of `triple_balance`:
`max(_n_mini_epoch(n_one, n_one_epoch), _n_mini_epoch(n_zero_rand,
n_zero_rand_epoch), _n_mini_epoch(n_zero_max, n_zero_max_epoch))`. -/
noncomputable def tb_n_mini (n_one n_zero_rand n_zero_max : ℤ)
    (d : ℤ × ℤ × ℤ) : ℤ :=
  max (max ( _n_mini_epoch n_one d.1) ( _n_mini_epoch n_zero_rand d.2.1))
    ( _n_mini_epoch n_zero_max d.2.2)

/-- The index-replication loop
`while len(idx) < target: idx = np.append(idx, idx)` (doubling until the
target length is reached).  On an empty list with a positive target the
source loops forever; that branch returns the empty list here and is proved
unreachable on the triple-balance path. -/
def replicate_idx (l : List ℤ) (target : ℕ) : List ℤ :=
  if l.length < target then
    if l.isEmpty then l
    else replicate_idx (l ++ l) target
  else l
termination_by target - l.length
decreasing_by
  have hne : l.length ≠ 0 := by
    simp only [List.isEmpty_iff] at *
    intro h
    exact (by assumption : ¬l = []) (List.length_eq_zero.mp h)
  simp only [List.length_append]
  omega

/-- `max_idx = np.array(query_kwargs["query_src"].get("max", []))` (a copy of
the `"max"` provenance entry, empty when absent). -/
def tb_max_idx (query_src : List (String × List ℤ)) : List ℤ :=
  (query_src.lookup "max").getD []

/-- The loop appending every provenance entry other than `"max"` (in map
order, as a Python dict iterates in insertion order) into `rand_idx`. -/
def tb_rand_idx (query_src : List (String × List ℤ)) : List ℤ :=
  (query_src.filter (fun kv => kv.1 ≠ "max")).flatMap Prod.snd

/-- `rand_idx` after the optional `np.random.shuffle(rand_idx)`
(shuffle-oracle call site 0). -/
def tb_rand_idx_sh (σ : ℕ → List ℤ → List ℤ) (shuffle : Bool)
    (query_src : List (String × List ℤ)) : List ℤ :=
  if shuffle then σ 0 (tb_rand_idx query_src) else tb_rand_idx query_src

/-- `max_idx` after the optional `np.random.shuffle(max_idx)`
(shuffle-oracle call site 1). -/
def tb_max_idx_sh (σ : ℕ → List ℤ → List ℤ) (shuffle : Bool)
    (query_src : List (String × List ℤ)) : List ℤ :=
  if shuffle then σ 1 (tb_max_idx query_src) else tb_max_idx query_src

/-- `one_idx = train_idx[np.where(y[train_idx] == 1)]`. -/
def tb_one_idx (y train_idx : List ℤ) : List ℤ :=
  train_idx.filter (fun i => aget y i = 1)

/-- `zero_max_idx = max_idx[np.where(y[max_idx] == 0)]`. -/
def tb_zero_max_idx (σ : ℕ → List ℤ → List ℤ) (shuffle : Bool)
    (y : List ℤ) (query_src : List (String × List ℤ)) : List ℤ :=
  (tb_max_idx_sh σ shuffle query_src).filter (fun i => aget y i = 0)

/-- `zero_rand_idx = rand_idx[np.where(y[rand_idx] == 0)]`. -/
def tb_zero_rand_idx (σ : ℕ → List ℤ → List ℤ) (shuffle : Bool)
    (y : List ℤ) (query_src : List (String × List ℤ)) : List ℤ :=
  (tb_rand_idx_sh σ shuffle query_src).filter (fun i => aget y i = 0)

/-- One iteration of the mini-epoch loop: the slices
`one_idx[i*n_one_epoch:(i+1)*n_one_epoch]` etc., concatenated (ones, then
random zeros, then max zeros) and optionally shuffled
(shuffle-oracle call site `2+i`). -/
def tb_epoch_slice (σ : ℕ → List ℤ → List ℤ) (shuffle : Bool)
    (one_rep rand_rep max_rep : List ℤ) (a b c : ℤ) (i : ℕ) : List ℤ :=
  let new_idx := pyslice one_rep ((i : ℤ) * a) (((i : ℤ) + 1) * a) ++
    pyslice rand_rep ((i : ℤ) * b) (((i : ℤ) + 1) * b) ++
    pyslice max_rep ((i : ℤ) * c) (((i : ℤ) + 1) * c)
  if shuffle then σ (2 + i) new_idx else new_idx

/-- The index sequence `all_idx` built by `triple_balance` from the three
groups and the sizing triple `d`: the groups are replicated (the two
zero-groups only when their target count is truthy), then the mini-epoch
slices are concatenated for `i in range(n_mini_epoch)`. -/
noncomputable def tb_all_idx (σ : ℕ → List ℤ → List ℤ) (shuffle : Bool)
    (one_idx zero_rand_idx zero_max_idx : List ℤ) (d : ℤ × ℤ × ℤ) : List ℤ :=
  let M : ℤ := tb_n_mini (one_idx.length : ℤ) (zero_rand_idx.length : ℤ)
    (zero_max_idx.length : ℤ) d
  let one_rep := replicate_idx one_idx (d.1 * M).toNat
  let rand_rep := if d.2.1 ≠ 0 then replicate_idx zero_rand_idx (d.2.1 * M).toNat
    else zero_rand_idx
  let max_rep := if d.2.2 ≠ 0 then replicate_idx zero_max_idx (d.2.2 * M).toNat
    else zero_max_idx
  (List.range M.toNat).flatMap (tb_epoch_slice σ shuffle one_rep rand_rep max_rep d.1 d.2.1 d.2.2)

/-- The `if 'epochs' in fit_kwargs:` block.  The effective-fraction values
`efrac_one = n_one_epoch/n_one`, `efrac_zero_rand = n_zero_rand_epoch/n_zero_rand`
and (for truthy `n_zero_max`) `efrac_zero_max = n_zero_max_epoch/n_zero_max`
are computed by the source and can raise `ZeroDivisionError` (the guards
below), but the combined `efrac` is then overwritten by the constant `1.0`
before `fit_kwargs['epochs'] = ceil(pref_epochs/(efrac*n_mini_epoch))`. -/
noncomputable def tb_set_epochs (fit_kwargs : List (String × ℤ))
    (n_one n_zero_rand n_zero_max : ℤ) (d : ℤ × ℤ × ℤ)
    (n_mini_epoch pref_epochs : ℤ) : Except String (List (String × ℤ)) :=
  if (fit_kwargs.lookup "epochs").isSome then
    if n_one = 0 then .error "ZeroDivisionError"
    else
      let efrac_one : ℝ := (d.1 : ℝ) / (n_one : ℝ)
      if n_zero_rand = 0 then .error "ZeroDivisionError"
      else
        let efrac_zero_rand : ℝ := (d.2.1 : ℝ) / (n_zero_rand : ℝ)
        let efrac₀ : ℝ :=
          if n_zero_max ≠ 0 then
            (efrac_one * efrac_zero_rand * ((d.2.2 : ℝ) / (n_zero_max : ℝ))) ^ ((1 : ℝ) / 3)
          else (efrac_one * efrac_zero_rand) ^ ((1 : ℝ) / 2)
        let efrac : ℝ := 1
        if efrac * (n_mini_epoch : ℝ) = 0 then .error "ZeroDivisionError"
        else
          .ok (fit_kwargs.map (fun kv =>
            if kv.1 = "epochs" then
              ("epochs", ⌈(pref_epochs : ℝ) / (efrac * (n_mini_epoch : ℝ))⌉)
            else kv))
  else .ok fit_kwargs

/-- The embedded `triple_balance(X, y, train_idx, fit_kwargs, query_kwargs,
pref_epochs, shuffle, **dist_kwargs)`.  `full_sample` is the external
fallback collaborator; `σ` is the shuffle oracle.  The result carries the
`(X[all_idx], y[all_idx])` pair together with the caller-visible final
`fit_kwargs` and `query_src` (the source never writes the shuffled local
copies `rand_idx`/`max_idx` back into `query_kwargs["query_src"]`, so the
returned `query_src` is the argument itself). -/
noncomputable def triple_balance
    (full_sample : List ℤ → List ℤ → List ℤ → List ℤ × List ℤ)
    (σ : ℕ → List ℤ → List ℤ) (X y train_idx : List ℤ)
    (fit_kwargs : List (String × ℤ)) (query_src : List (String × List ℤ))
    (pref_epochs : ℤ) (shuffle : Bool)
    (rand_max_b rand_max_alpha one_zero_beta one_zero_delta : ℝ) :
    Except String ((List ℤ × List ℤ) × List (String × ℤ) × List (String × List ℤ)) :=
  if (tb_rand_idx_sh σ shuffle query_src).length = 0 ∨
      (tb_max_idx_sh σ shuffle query_src).length = 0 then
    .ok (full_sample X y train_idx, fit_kwargs, query_src)
  else
    let one_idx := tb_one_idx y train_idx
    let zero_max_idx := tb_zero_max_idx σ shuffle y query_src
    let zero_rand_idx := tb_zero_rand_idx σ shuffle y query_src
    if zero_rand_idx.length = 0 ∨ zero_max_idx.length = 0 then
      .ok (full_sample X y train_idx, fit_kwargs, query_src)
    else
      match _get_triple_dist (one_idx.length : ℤ) (zero_rand_idx.length : ℤ)
          (zero_max_idx.length : ℤ) (y.length : ℤ)
          rand_max_b rand_max_alpha one_zero_beta one_zero_delta with
      | .error e => .error e
      | .ok d =>
        let all_idx := tb_all_idx σ shuffle one_idx zero_rand_idx zero_max_idx d
        match tb_set_epochs fit_kwargs (one_idx.length : ℤ)
            (zero_rand_idx.length : ℤ) (zero_max_idx.length : ℤ) d
            (tb_n_mini (one_idx.length : ℤ) (zero_rand_idx.length : ℤ)
              (zero_max_idx.length : ℤ) d) pref_epochs with
        | .error e => .error e
        | .ok fit_kwargs' =>
          .ok ((fancy X all_idx, fancy y all_idx), fit_kwargs', query_src)

/-! ### Concrete instances used to exercise the definitions -/

/-- A trivial fallback collaborator instance. -/
def fs0 : List ℤ → List ℤ → List ℤ → List ℤ × List ℤ :=
  fun X y train_idx => (fancy X train_idx, fancy y train_idx)

/-- The identity shuffle oracle (a permutation). -/
def idshuffle : ℕ → List ℤ → List ℤ := fun _ l => l

/-- A shuffle oracle that reverses every list (a non-identity permutation). -/
def revshuffle : ℕ → List ℤ → List ℤ := fun _ l => l.reverse

/-- Feature column of the 4-sample example pool. -/
def X0 : List ℤ := [10, 11, 12, 13]

/-- Labels of the example pool: index 2 is the only positive. -/
def y0 : List ℤ := [0, 0, 1, 0]

/-- Training indices of the example: the single positive. -/
def train0 : List ℤ := [2]

/-- Example fit configuration with an `epochs` key (and another key). -/
def fk0 : List (String × ℤ) := [("epochs", 5), ("verbose", 1)]

/-- Example provenance map: one `"max"` entry and one random-like entry. -/
def qs0 : List (String × List ℤ) := [("max", [0]), ("rand", [1])]

/-- Labels for the C10 scenario: no positive anywhere. -/
def y1 : List ℤ := [0, 0, 0, 0]

/-- Labels for the C4 scenario: every pool entry is a positive, so both
zero groups empty out and the fallback branch is taken (after the local
shuffles have already happened). -/
def y2 : List ℤ := [1, 1, 1, 1]

/-- Provenance map for the C4 scenario, with two-element pools so that a
genuine permutation is visible. -/
def qs1 : List (String × List ℤ) := [("max", [0, 1]), ("rand", [2, 3])]

/-! ### Concrete evaluations of the sizing pipeline -/

/-- `_one_zero_ratio(1, 2, beta=1, delta=1/2) = 3/4`. -/
theorem oz_eval0 : _one_zero_ratio 1 (1 + 1) 1 (1/2) = .ok (3/4) := by
  rw [ _one_zero_ratio]
  rw [if_neg (by norm_num), if_neg (by norm_num)]
  rw [Real.rpow_one]
  norm_num

/-- `_rand_max_weight(1, 1, 1, 4, b=1, alpha=1) = 1`. -/
theorem wr_eval0 : _rand_max_weight 1 1 1 4 1 1 = .ok 1 := by
  rw [_rand_max_weight]
  rw [if_neg (by norm_num)]
  simp only []
  rw [if_neg (by norm_num), if_neg (by norm_num)]
  rw [Real.log_one, Real.rpow_one]
  norm_num

/-- `ceil(1 / (3/4)) = 2`. -/
theorem ceil_eval0 : (⌈(((1:ℤ):ℝ)) / (3/4)⌉ : ℤ) = 2 := by
  rw [Int.ceil_eq_iff]
  push_cast
  constructor <;> norm_num

/-- `_get_triple_dist(1, 1, 1, 4, b=1, alpha=1, beta=1, delta=1/2) = (1, 1, 1)`. -/
theorem dist_eval0 : _get_triple_dist 1 1 1 4 1 1 1 (1/2) = .ok (1, 1, 1) := by
  rw [_get_triple_dist]
  rw [oz_eval0]
  simp only []
  rw [if_neg (by norm_num)]
  rw [wr_eval0]
  simp only []
  rw [if_pos (by norm_num), if_neg (by norm_num), if_neg (by norm_num)]
  rw [ceil_eval0]
  norm_num [Int.ceil_one]

/-- The mini-epoch count for three groups of size 1 with targets `(1,1,1)`. -/
theorem nmini_eval0 : tb_n_mini 1 1 1 (1, 1, 1) = 1 := by
  rw [tb_n_mini]
  rw [_n_mini_epoch]
  rw [if_neg (by norm_num)]
  norm_num [Int.ceil_one]

/-- The schedule built from groups `[2]`, `[1]`, `[0]` with targets `(1,1,1)`:
one mini-epoch `[2, 1, 0]`. -/
theorem all_idx_eval0 :
    tb_all_idx idshuffle false [2] [1] [0] (1, 1, 1) = [2, 1, 0] := by
  rw [tb_all_idx]
  simp only [List.length_singleton, Nat.cast_one]
  rw [nmini_eval0]
  simp [replicate_idx, tb_epoch_slice, pyslice, idshuffle]
  decide

/-- The epochs rewrite on `fk0` with all counts `1`: stores `ceil(1/1) = 1`. -/
theorem set_epochs_eval0 :
    tb_set_epochs fk0 1 1 1 (1, 1, 1) 1 1 = .ok [("epochs", 1), ("verbose", 1)] := by
  rw [tb_set_epochs]
  rw [if_pos (by decide), if_neg (by decide)]
  simp only []
  rw [if_neg (by decide)]
  rw [if_neg (by norm_num)]
  simp only [fk0, List.map_cons, List.map_nil]
  norm_num [Int.ceil_one]
  exact fun h => absurd h (by decide)

/-- Full evaluation of `triple_balance` on the 4-sample example: one positive,
one random zero, one max zero, all targets 1, one mini-epoch `[2, 1, 0]`, and
`epochs` rewritten to `ceil(1/1) = 1`. -/
theorem tb_eval0 :
    triple_balance fs0 idshuffle X0 y0 train0 fk0 qs0 1 false 1 1 1 (1/2) =
      .ok (([12, 11, 10], [1, 0, 0]), [("epochs", 1), ("verbose", 1)], qs0) := by
  have e1 : tb_one_idx y0 train0 = [2] := by decide
  have e2 : tb_zero_rand_idx idshuffle false y0 qs0 = [1] := by decide
  have e3 : tb_zero_max_idx idshuffle false y0 qs0 = [0] := by decide
  have e1l : ((tb_one_idx y0 train0).length : ℤ) = 1 := by decide
  have e2l : ((tb_zero_rand_idx idshuffle false y0 qs0).length : ℤ) = 1 := by decide
  have e3l : ((tb_zero_max_idx idshuffle false y0 qs0).length : ℤ) = 1 := by decide
  have e4l : ((y0.length : ℕ) : ℤ) = 4 := by decide
  rw [triple_balance]
  rw [if_neg (by decide)]
  simp only []
  rw [if_neg (by decide)]
  rw [e1l, e2l, e3l, e4l, dist_eval0]
  simp only []
  rw [e1, e2, e3, all_idx_eval0]
  rw [nmini_eval0, set_epochs_eval0]
  simp only []
  rfl

/-! ### Structural lemmas about the schedule-building step -/

/-- The replication loop reaches its target length on a non-empty list. -/
theorem replicate_idx_length (l : List ℤ) (t : ℕ) (h : l ≠ []) :
    t ≤ (replicate_idx l t).length := by
  by_cases hlt : l.length < t
  · rw [replicate_idx, if_pos hlt, if_neg (by simpa [List.isEmpty_iff] using h)]
    exact replicate_idx_length (l ++ l) t (by simp [h])
  · rw [replicate_idx, if_neg hlt]
    omega
termination_by t - l.length
decreasing_by
  have := List.length_pos.mpr h
  simp only [List.length_append]
  omega

/-- Length of an in-range Python slice. -/
theorem pyslice_length (l : List ℤ) (a b : ℤ) (ha : 0 ≤ a) (hab : a ≤ b)
    (hb : b ≤ (l.length : ℤ)) : ((pyslice l a b).length : ℤ) = b - a := by
  rw [pyslice]
  rw [if_neg (by omega), if_neg (by omega), min_eq_left (by omega), min_eq_left hb]
  simp only [List.length_drop, List.length_take]
  omega

/-- Length of one of the three per-group slices of a mini-epoch. -/
theorem slice_piece_length (L : List ℤ) (e : ℤ) (i : ℕ) (he : 0 ≤ e)
    (hlen : ((i : ℤ) + 1) * e ≤ (L.length : ℤ)) :
    (pyslice L ((i : ℤ) * e) (((i : ℤ) + 1) * e)).length = e.toNat := by
  have hab : (i : ℤ) * e ≤ ((i : ℤ) + 1) * e :=
    mul_le_mul_of_nonneg_right (by linarith) he
  have h := pyslice_length L ((i : ℤ) * e) (((i : ℤ) + 1) * e)
    (mul_nonneg (by positivity) he) hab hlen
  have : ((i : ℤ) + 1) * e - (i : ℤ) * e = e := by ring
  omega

/-- A replicated group is long enough for every mini-epoch slice. -/
theorem rep_bound (l : List ℤ) (e M : ℤ) (he : 0 ≤ e) (hne : l ≠ [])
    (i : ℕ) (hi : (i : ℤ) < M) :
    ((i : ℤ) + 1) * e ≤ ((replicate_idx l (e * M).toNat).length : ℤ) := by
  have h1 : (e * M).toNat ≤ (replicate_idx l (e * M).toNat).length :=
    replicate_idx_length _ _ hne
  have h2 : ((i : ℤ) + 1) * e ≤ M * e := mul_le_mul_of_nonneg_right (by omega) he
  calc ((i : ℤ) + 1) * e ≤ M * e := h2
    _ = e * M := mul_comm _ _
    _ ≤ ((e * M).toNat : ℤ) := Int.self_le_toNat _
    _ ≤ _ := by exact_mod_cast h1

/-- Summing a constant over `List.range`. -/
theorem sum_map_range_const (n : ℕ) (f : ℕ → ℕ) (K : ℕ)
    (h : ∀ i < n, f i = K) : ((List.range n).map f).sum = n * K := by
  induction n with
  | zero => simp
  | succ m ih =>
    rw [List.range_succ, List.map_append, List.sum_append]
    simp [ih (fun i hi => h i (by omega)), h m (by omega), Nat.succ_mul]

/-- `_n_mini_epoch` never returns a negative count. -/
theorem n_mini_epoch_nonneg (n e : ℤ) : 0 ≤ _n_mini_epoch n e := by
  rw [_n_mini_epoch]
  split
  · exact le_refl 0
  · next h =>
    push_neg at h
    exact Int.ceil_nonneg (div_nonneg (by exact_mod_cast h.1.le) (by exact_mod_cast h.2.le))

/-- The overall mini-epoch count is non-negative. -/
theorem tb_n_mini_nonneg (n_one n_zero_rand n_zero_max : ℤ) (d : ℤ × ℤ × ℤ) :
    0 ≤ tb_n_mini n_one n_zero_rand n_zero_max d := by
  rw [tb_n_mini]
  exact le_trans (n_mini_epoch_nonneg n_one d.1)
    (le_trans (le_max_left _ _) (le_max_left _ _))

/-- The first component of a successful `_get_triple_dist` is `n_one`. -/
theorem dist_fst (n1 nr nm ns : ℤ) (b a be de : ℝ) (d : ℤ × ℤ × ℤ)
    (h : _get_triple_dist n1 nr nm ns b a be de = .ok d) : d.1 = n1 := by
  rw [_get_triple_dist] at h
  repeat' split at h
  all_goals try simp_all
  all_goals subst h
  all_goals rfl

/-- Length of one mini-epoch concatenation when each group list is long
enough: the three slices are full, so the mini-epoch holds exactly
`a + b + c` indices (shuffled or not). -/
theorem tb_epoch_slice_length (σ : ℕ → List ℤ → List ℤ) (shuffle : Bool)
    (L1 L2 L3 : List ℤ) (a b c : ℤ) (i : ℕ)
    (hσ : ∀ k l, (σ k l).length = l.length)
    (ha : 0 ≤ a) (hb : 0 ≤ b) (hc : 0 ≤ c)
    (hL1 : ((i : ℤ) + 1) * a ≤ (L1.length : ℤ))
    (hL2 : ((i : ℤ) + 1) * b ≤ (L2.length : ℤ))
    (hL3 : ((i : ℤ) + 1) * c ≤ (L3.length : ℤ)) :
    (tb_epoch_slice σ shuffle L1 L2 L3 a b c i).length = a.toNat + b.toNat + c.toNat := by
  have s1 := slice_piece_length L1 a i ha hL1
  have s2 := slice_piece_length L2 b i hb hL2
  have s3 := slice_piece_length L3 c i hc hL3
  rw [tb_epoch_slice]
  split
  · rw [hσ]
    simp only [List.length_append, s1, s2, s3]
  · simp only [List.length_append, s1, s2, s3]

/-- Core schedule-length invariant: with non-negative per-mini-epoch targets
whose `n_one_epoch` component equals the size of the ones group (as
`_get_triple_dist` guarantees) and non-empty zero groups, the built index
sequence has exactly `n_mini_epoch * (n_one_epoch + n_zero_rand_epoch +
n_zero_max_epoch)` entries. -/
theorem tb_all_idx_length (σ : ℕ → List ℤ → List ℤ) (shuffle : Bool)
    (one_idx zr zm : List ℤ) (d : ℤ × ℤ × ℤ)
    (hσ : ∀ k l, (σ k l).length = l.length)
    (hzr : zr ≠ []) (hzm : zm ≠ [])
    (hone : d.1 = (one_idx.length : ℤ))
    (h1 : 0 ≤ d.1) (h2 : 0 ≤ d.2.1) (h3 : 0 ≤ d.2.2) :
    ((tb_all_idx σ shuffle one_idx zr zm d).length : ℤ)
      = tb_n_mini (one_idx.length : ℤ) (zr.length : ℤ) (zm.length : ℤ) d
        * (d.1 + d.2.1 + d.2.2) := by
  have hM0 : 0 ≤ tb_n_mini (one_idx.length : ℤ) (zr.length : ℤ) (zm.length : ℤ) d :=
    tb_n_mini_nonneg _ _ _ _
  rw [tb_all_idx, List.length_flatMap]
  set M := tb_n_mini (one_idx.length : ℤ) (zr.length : ℤ) (zm.length : ℤ) d with hMdef
  set L1 := replicate_idx one_idx (d.1 * M).toNat with hL1def
  set L2 := (if d.2.1 ≠ 0 then replicate_idx zr (d.2.1 * M).toNat else zr) with hL2def
  set L3 := (if d.2.2 ≠ 0 then replicate_idx zm (d.2.2 * M).toNat else zm) with hL3def
  have b1 : ∀ i : ℕ, (i : ℤ) < M → ((i : ℤ) + 1) * d.1 ≤ (L1.length : ℤ) := by
    intro i hi
    rcases eq_or_ne one_idx [] with h | h
    · have hd0 : d.1 = 0 := by rw [h] at hone; simpa using hone
      rw [hd0, mul_zero]
      exact_mod_cast Nat.zero_le _
    · rw [hL1def]
      exact rep_bound one_idx d.1 M h1 h i hi
  have b2 : ∀ i : ℕ, (i : ℤ) < M → ((i : ℤ) + 1) * d.2.1 ≤ (L2.length : ℤ) := by
    intro i hi
    by_cases hb0 : d.2.1 = 0
    · rw [hb0, mul_zero]
      exact_mod_cast Nat.zero_le _
    · rw [hL2def, if_pos hb0]
      exact rep_bound zr d.2.1 M h2 hzr i hi
  have b3 : ∀ i : ℕ, (i : ℤ) < M → ((i : ℤ) + 1) * d.2.2 ≤ (L3.length : ℤ) := by
    intro i hi
    by_cases hc0 : d.2.2 = 0
    · rw [hc0, mul_zero]
      exact_mod_cast Nat.zero_le _
    · rw [hL3def, if_pos hc0]
      exact rep_bound zm d.2.2 M h3 hzm i hi
  have hslice : ∀ i < M.toNat,
      (tb_epoch_slice σ shuffle L1 L2 L3 d.1 d.2.1 d.2.2 i).length
        = d.1.toNat + d.2.1.toNat + d.2.2.toNat := by
    intro i hi
    have hiM : (i : ℤ) < M := by omega
    exact tb_epoch_slice_length σ shuffle L1 L2 L3 d.1 d.2.1 d.2.2 i hσ h1 h2 h3
      (b1 i hiM) (b2 i hiM) (b3 i hiM)
  rw [sum_map_range_const M.toNat
    (List.length ∘ tb_epoch_slice σ shuffle L1 L2 L3 d.1 d.2.1 d.2.2)
    (d.1.toNat + d.2.1.toNat + d.2.2.toNat) hslice]
  rw [Nat.cast_mul, Nat.cast_add, Nat.cast_add, Int.toNat_of_nonneg hM0,
    Int.toNat_of_nonneg h1, Int.toNat_of_nonneg h2, Int.toNat_of_nonneg h3]

/-! ### Lemmas about the `epochs` rewrite on the fit configuration -/

/-- The epochs update touches no key name: the key sequence is unchanged. -/
theorem map_epochs_keys (fk : List (String × ℤ)) (v : ℤ) :
    (fk.map (fun kv => if kv.1 = "epochs" then ("epochs", v) else kv)).map Prod.fst
      = fk.map Prod.fst := by
  induction fk with
  | nil => rfl
  | cons kv t ih =>
    simp only [List.map_cons, ih, List.cons.injEq, and_true]
    by_cases h : kv.1 = "epochs" <;> simp [h]

/-- The epochs update leaves the value of every other key unchanged. -/
theorem map_epochs_lookup_ne (fk : List (String × ℤ)) (v : ℤ) (k : String)
    (hk : k ≠ "epochs") :
    (fk.map (fun kv => if kv.1 = "epochs" then ("epochs", v) else kv)).lookup k
      = fk.lookup k := by
  induction fk with
  | nil => rfl
  | cons kv t ih =>
    obtain ⟨k1, v1⟩ := kv
    simp only [List.map_cons]
    by_cases h : (k1, v1).1 = "epochs"
    · rw [if_pos h]
      simp only at h
      rw [h, List.lookup_cons, List.lookup_cons]
      simp [beq_false_of_ne hk, ih]
    · rw [if_neg h]
      rw [List.lookup_cons, List.lookup_cons]
      by_cases hkk : k = k1
      · simp [hkk]
      · simp [beq_false_of_ne hkk, ih]

/-- When `epochs` is present, the update stores exactly `v` under it. -/
theorem map_epochs_lookup_eq (fk : List (String × ℤ)) (v : ℤ)
    (h : (fk.lookup "epochs").isSome) :
    (fk.map (fun kv => if kv.1 = "epochs" then ("epochs", v) else kv)).lookup "epochs"
      = some v := by
  induction fk with
  | nil => simp [List.lookup] at h
  | cons kv t ih =>
    obtain ⟨k1, v1⟩ := kv
    rw [List.lookup_cons] at h
    simp only [List.map_cons]
    by_cases hk : (k1, v1).1 = "epochs"
    · simp only at hk
      rw [if_pos hk]
      rw [List.lookup_cons]
      simp
    · simp only at hk
      rw [if_neg hk, List.lookup_cons]
      rw [beq_false_of_ne (by simpa using Ne.symm hk)] at h ⊢
      exact ih h

/-! ### Claims -/

/-- Claim C7: `_n_mini_epoch` returns `0` when either argument is
non-positive and `ceil(n_samples/epoch_size)` otherwise, so
`_n_mini_epoch 0 5 = 0` and `_n_mini_epoch 10 3 = 4`; and the overall
mini-epoch count used by `triple_balance` is the maximum of `_n_mini_epoch`
applied to the three (group size, per-epoch target) pairs. -/
theorem c7_n_mini_epoch (n e n1 nr nm : ℤ) (d : ℤ × ℤ × ℤ) :
    ((n ≤ 0 ∨ e ≤ 0) → _n_mini_epoch n e = 0)
    ∧ (0 < n → 0 < e → _n_mini_epoch n e = ⌈(n : ℝ) / (e : ℝ)⌉)
    ∧ _n_mini_epoch 0 5 = 0
    ∧ _n_mini_epoch 10 3 = 4
    ∧ tb_n_mini n1 nr nm d
        = max (max ( _n_mini_epoch n1 d.1) ( _n_mini_epoch nr d.2.1))
            ( _n_mini_epoch nm d.2.2) := by
  refine ⟨?_, ?_, ?_, ?_, rfl⟩
  · intro h
    rw [_n_mini_epoch, if_pos h]
  · intro hn he
    rw [_n_mini_epoch, if_neg (by omega)]
  · rw [_n_mini_epoch, if_pos (by norm_num)]
  · rw [_n_mini_epoch, if_neg (by norm_num)]
    rw [Int.ceil_eq_iff]
    push_cast
    constructor <;> norm_num

/-- Witness for C7 at `(10, 3)` and trivial group data. -/
theorem c7_n_mini_epoch_witness :
    _n_mini_epoch 0 5 = 0 ∧ _n_mini_epoch 10 3 = 4
    ∧ _n_mini_epoch 10 3 = ⌈((10 : ℤ) : ℝ) / ((3 : ℤ) : ℝ)⌉ :=
  ⟨(c7_n_mini_epoch 10 3 1 1 1 (1, 1, 1)).2.2.1,
   (c7_n_mini_epoch 10 3 1 1 1 (1, 1, 1)).2.2.2.1,
   (c7_n_mini_epoch 10 3 1 1 1 (1, 1, 1)).2.1 (by norm_num) (by norm_num)⟩

/-- Claim C8: `_rand_max_weight` raises a `ZeroDivisionError` whenever
`n_samples = n_zero_rand`, `_one_zero_ratio` raises one whenever
`n_zero = 0`, and the latter propagates uncaught out of `_get_triple_dist`
(whose ratio call comes first) instead of becoming a fallback result. -/
theorem c8_division_errors (n1 nr nm ns n_zero : ℤ) (b a be de : ℝ) :
    (ns = nr → _rand_max_weight n1 nr nm ns b a = .error "ZeroDivisionError")
    ∧ (n_zero = 0 → _one_zero_ratio n1 n_zero be de = .error "ZeroDivisionError")
    ∧ (nr + nm = 0 →
        _get_triple_dist n1 nr nm ns b a be de = .error "ZeroDivisionError") := by
  refine ⟨?_, ?_, ?_⟩
  · intro h
    rw [_rand_max_weight, if_pos (by rw [h]; ring)]
  · intro h
    rw [ _one_zero_ratio, if_pos h]
  · intro h
    rw [_get_triple_dist]
    rw [show _one_zero_ratio n1 (nr + nm) be de = .error "ZeroDivisionError" from
      by rw [ _one_zero_ratio, if_pos h]]

/-- Witness for C8 at concrete degenerate inputs. -/
theorem c8_division_errors_witness :
    _rand_max_weight 1 3 1 3 10 1 = .error "ZeroDivisionError"
    ∧ _one_zero_ratio 1 0 1 (1/2) = .error "ZeroDivisionError"
    ∧ _get_triple_dist 1 0 0 3 10 1 1 (1/2) = .error "ZeroDivisionError" :=
  ⟨(c8_division_errors 1 3 1 3 0 10 1 1 (1/2)).1 rfl,
   (c8_division_errors 1 3 1 3 0 10 1 1 (1/2)).2.1 rfl,
   (c8_division_errors 1 0 0 3 0 10 1 1 (1/2)).2.2 rfl⟩

/-- Claim C6 counterexample: the claim quantifies over all `alpha ≥ 0`, but
at `alpha = 0` the source computes `frac**alpha = 0.0**0.0 = 1.0`, so the
weight at `frac = 0` is `b * exp(-log b) = 1`, not `b`: with `b = 10`
(`n_one = n_zero_max = 0`, `n_zero_rand = 1`, `n_samples = 2`) the result is
`.ok 1`, not `.ok 10`. -/
theorem c6_counterexample :
    (0 : ℝ) < 10 ∧ (0 : ℝ) ≤ 0
    ∧ _rand_max_weight 0 1 0 2 10 0 = .ok 1
    ∧ _rand_max_weight 0 1 0 2 10 0 ≠ .ok 10 := by
  have hval : _rand_max_weight 0 1 0 2 10 0 = .ok 1 := by
    rw [_rand_max_weight, if_neg (by norm_num)]
    simp only []
    rw [if_neg (by norm_num), if_neg (by norm_num)]
    have hfrac : (((0 : ℤ) : ℝ) + ((0 : ℤ) : ℝ)) / (((2 : ℤ) : ℝ) - ((1 : ℤ) : ℝ)) = 0 := by
      norm_num
    rw [hfrac, Real.rpow_zero, mul_one, Real.exp_neg, Real.exp_log (by norm_num)]
    norm_num
  refine ⟨by norm_num, le_refl 0, hval, ?_⟩
  rw [hval]
  intro hcon
  have := Except.ok.inj hcon
  norm_num at this

/-- Claim C6 (amended): for every `b > 0`, the weight is exactly `b` at
`frac = 0` provided additionally `alpha > 0` (at `alpha = 0` the source's
`0.0**0.0 = 1.0` makes the weight `1`), and is exactly `1` at `frac = 1`
for every `alpha ≥ 0`. -/
theorem c6_weight_boundaries (n1 nr nm ns : ℤ) (b alpha : ℝ) (hb : 0 < b) :
    (0 < alpha → (n1 : ℝ) + (nm : ℝ) = 0 → (ns : ℝ) - (nr : ℝ) ≠ 0 →
      _rand_max_weight n1 nr nm ns b alpha = .ok b)
    ∧ (0 ≤ alpha → (n1 : ℝ) + (nm : ℝ) = (ns : ℝ) - (nr : ℝ) →
        (ns : ℝ) - (nr : ℝ) ≠ 0 →
      _rand_max_weight n1 nr nm ns b alpha = .ok 1) := by
  constructor
  · intro ha h0 hden
    rw [_rand_max_weight, if_neg hden]
    simp only []
    rw [if_neg (not_le.mpr hb),
      if_neg (fun hcon => absurd hcon.2 (not_lt.mpr ha.le))]
    rw [h0, zero_div, Real.zero_rpow (ne_of_gt ha), mul_zero, Real.exp_zero, mul_one]
  · intro ha h1 hden
    rw [_rand_max_weight, if_neg hden]
    simp only []
    rw [if_neg (not_le.mpr hb),
      if_neg (fun hcon => absurd hcon.2 (not_lt.mpr ha))]
    rw [h1, div_self hden, Real.one_rpow, mul_one, Real.exp_neg,
      Real.exp_log hb, mul_inv_cancel₀ (ne_of_gt hb)]

/-- Witness for the amended C6: `b = 10, alpha = 1` gives weight `10` at
`frac = 0` and weight `1` at `frac = 1`. -/
theorem c6_weight_boundaries_witness :
    _rand_max_weight 0 1 0 2 10 1 = .ok 10
    ∧ _rand_max_weight 1 1 0 2 10 1 = .ok 1 :=
  ⟨(c6_weight_boundaries 0 1 0 2 10 1 (by norm_num)).1 (by norm_num) (by norm_num)
      (by norm_num),
   (c6_weight_boundaries 1 1 0 2 10 1 (by norm_num)).2 (by norm_num) (by norm_num)
      (by norm_num)⟩

/-- Claim C5: under `n_one ≥ 0`, `n_zero_rand > 0`, `n_zero_max > 0`,
`n_samples > n_zero_rand`, `b > 0`, `alpha ≥ 0`, `beta ≥ 0` and
`delta ∈ (0,1)`, `_get_triple_dist` succeeds and its `n_zero_max_epoch`
component is non-negative: the unguarded subtraction of step 5 cannot go
negative, because `ceil(wr * (n_zero_epoch / (wr + n_zero_max/n_zero_rand)))`
never exceeds `n_zero_epoch`. -/
theorem c5_no_negative_count (n_one n_zero_rand n_zero_max n_samples : ℤ)
    (b alpha beta delta : ℝ)
    (h1 : 0 ≤ n_one) (h2 : 0 < n_zero_rand) (h3 : 0 < n_zero_max)
    (h4 : n_zero_rand < n_samples) (hb : 0 < b) (ha : 0 ≤ alpha)
    (hbe : 0 ≤ beta) (hd1 : 0 < delta) (hd2 : delta < 1) :
    ∃ d, _get_triple_dist n_one n_zero_rand n_zero_max n_samples b alpha beta delta
        = .ok d ∧ 0 ≤ d.2.2 := by
  have hnzR : (0:ℝ) < ((n_zero_rand + n_zero_max : ℤ) : ℝ) := by
    exact_mod_cast (by omega : (0:ℤ) < n_zero_rand + n_zero_max)
  have hbase : (0:ℝ) ≤ (n_one : ℝ) / ((n_zero_rand + n_zero_max : ℤ) : ℝ) :=
    div_nonneg (by exact_mod_cast h1) hnzR.le
  have hRpos : (0:ℝ) <
      (1 - delta) * (((n_one : ℝ) / ((n_zero_rand + n_zero_max : ℤ) : ℝ)) ^ beta) + delta := by
    have hnn : (0:ℝ) ≤
        (1 - delta) * (((n_one : ℝ) / ((n_zero_rand + n_zero_max : ℤ) : ℝ)) ^ beta) :=
      mul_nonneg (by linarith) (Real.rpow_nonneg hbase beta)
    linarith
  have hoz : _one_zero_ratio n_one (n_zero_rand + n_zero_max) beta delta
      = .ok ((1 - delta) * (((n_one : ℝ) / ((n_zero_rand + n_zero_max : ℤ) : ℝ)) ^ beta) + delta) := by
    rw [ _one_zero_ratio, if_neg (by omega),
      if_neg (fun hcon => absurd hcon.2 (not_lt.mpr hbe))]
  have hden : (n_samples : ℝ) - (n_zero_rand : ℝ) ≠ 0 := by
    have : (n_zero_rand : ℝ) < (n_samples : ℝ) := by exact_mod_cast h4
    exact sub_ne_zero.mpr (ne_of_gt this)
  have hW : _rand_max_weight n_one n_zero_rand n_zero_max n_samples b alpha
      = .ok (b * Real.exp (-Real.log b *
          (((n_one : ℝ) + (n_zero_max : ℝ)) / ((n_samples : ℝ) - (n_zero_rand : ℝ))) ^ alpha)) := by
    rw [_rand_max_weight, if_neg hden]
    simp only []
    rw [if_neg (not_le.mpr hb), if_neg (fun hcon => absurd hcon.2 (not_lt.mpr ha))]
  have hWpos : (0:ℝ) < b * Real.exp (-Real.log b *
      (((n_one : ℝ) + (n_zero_max : ℝ)) / ((n_samples : ℝ) - (n_zero_rand : ℝ))) ^ alpha) :=
    mul_pos hb (Real.exp_pos _)
  have hmr : (0:ℝ) < (n_zero_max : ℝ) / (n_zero_rand : ℝ) :=
    div_pos (by exact_mod_cast h3) (by exact_mod_cast h2)
  rw [_get_triple_dist, hoz]
  simp only []
  rw [if_neg (ne_of_gt hRpos), hW]
  simp only []
  rw [if_pos (by omega : n_zero_max ≠ 0), if_neg (by omega : ¬n_zero_rand = 0),
    if_neg (ne_of_gt (by linarith :
      (0:ℝ) < b * Real.exp (-Real.log b *
        (((n_one : ℝ) + (n_zero_max : ℝ)) / ((n_samples : ℝ) - (n_zero_rand : ℝ))) ^ alpha)
        + (n_zero_max : ℝ) / (n_zero_rand : ℝ)))]
  refine ⟨_, rfl, ?_⟩
  simp only []
  have hNZE0 : (0:ℤ) ≤ ⌈(n_one : ℝ) /
      ((1 - delta) * (((n_one : ℝ) / ((n_zero_rand + n_zero_max : ℤ) : ℝ)) ^ beta) + delta)⌉ :=
    Int.ceil_nonneg (div_nonneg (by exact_mod_cast h1) hRpos.le)
  set W : ℝ := b * Real.exp (-Real.log b *
    (((n_one : ℝ) + (n_zero_max : ℝ)) / ((n_samples : ℝ) - (n_zero_rand : ℝ))) ^ alpha) with hWdef
  set N : ℤ := ⌈(n_one : ℝ) /
    ((1 - delta) * (((n_one : ℝ) / ((n_zero_rand + n_zero_max : ℤ) : ℝ)) ^ beta) + delta)⌉ with hNdef
  have hDpos : (0:ℝ) < W + (n_zero_max : ℝ) / (n_zero_rand : ℝ) := by
    rw [hWdef]
    linarith
  have hkey : W * ((N : ℝ) / (W + (n_zero_max : ℝ) / (n_zero_rand : ℝ))) ≤ (N : ℝ) := by
    have hfr : W / (W + (n_zero_max : ℝ) / (n_zero_rand : ℝ)) ≤ 1 :=
      (div_le_one hDpos).mpr (by linarith)
    have hN0 : (0:ℝ) ≤ (N : ℝ) := by exact_mod_cast hNZE0
    calc W * ((N : ℝ) / (W + (n_zero_max : ℝ) / (n_zero_rand : ℝ)))
        = (N : ℝ) * (W / (W + (n_zero_max : ℝ) / (n_zero_rand : ℝ))) := by ring
      _ ≤ (N : ℝ) * 1 := mul_le_mul_of_nonneg_left hfr hN0
      _ = (N : ℝ) := mul_one _
  have : ⌈W * ((N : ℝ) / (W + (n_zero_max : ℝ) / (n_zero_rand : ℝ)))⌉ ≤ N :=
    Int.ceil_le.mpr hkey
  omega

/-- Witness for C5 at `(1, 1, 1, 4)` with `b = 1, alpha = 1, beta = 1,
delta = 1/2`: the sizing step returns `(1, 1, 1)` and `n_zero_max_epoch = 1 ≥ 0`. -/
theorem c5_no_negative_count_witness :
    (0:ℤ) ≤ 1 ∧ (0:ℤ) < 1 ∧ (1:ℤ) < 4 ∧ (0:ℝ) < 1 ∧
      ∃ d, _get_triple_dist 1 1 1 4 1 1 1 (1/2) = .ok d ∧ 0 ≤ d.2.2 :=
  ⟨by norm_num, by norm_num, by norm_num, by norm_num,
    c5_no_negative_count 1 1 1 4 1 1 1 (1/2) (by norm_num) (by norm_num) (by norm_num)
      (by norm_num) (by norm_num) (by norm_num) (by norm_num) (by norm_num) (by norm_num)⟩


/-- Claim C2: whenever the random or max candidate pool is empty, or either
becomes empty after restricting to label-0 entries, `triple_balance` returns
exactly the fallback value `full_sample X y train_idx` (for every fallback
implementation), leaves `fit_kwargs` and `query_src` unchanged, and raises
no error. -/
theorem c2_fallback (full_sample : List ℤ → List ℤ → List ℤ → List ℤ × List ℤ)
    (σ : ℕ → List ℤ → List ℤ) (X y train_idx : List ℤ)
    (fit_kwargs : List (String × ℤ)) (query_src : List (String × List ℤ))
    (pref_epochs : ℤ) (shuffle : Bool) (b α β δ : ℝ)
    (h : tb_rand_idx_sh σ shuffle query_src = []
      ∨ tb_max_idx_sh σ shuffle query_src = []
      ∨ tb_zero_rand_idx σ shuffle y query_src = []
      ∨ tb_zero_max_idx σ shuffle y query_src = []) :
    triple_balance full_sample σ X y train_idx fit_kwargs query_src pref_epochs
        shuffle b α β δ
      = .ok (full_sample X y train_idx, fit_kwargs, query_src) := by
  rw [triple_balance]
  rcases h with h | h | h | h
  · rw [if_pos (Or.inl (by rw [h]; rfl))]
  · rw [if_pos (Or.inr (by rw [h]; rfl))]
  · by_cases hA : (tb_rand_idx_sh σ shuffle query_src).length = 0
      ∨ (tb_max_idx_sh σ shuffle query_src).length = 0
    · rw [if_pos hA]
    · rw [if_neg hA]
      simp only []
      rw [if_pos (Or.inl (by rw [h]; rfl))]
  · by_cases hA : (tb_rand_idx_sh σ shuffle query_src).length = 0
      ∨ (tb_max_idx_sh σ shuffle query_src).length = 0
    · rw [if_pos hA]
    · rw [if_neg hA]
      simp only []
      rw [if_pos (Or.inr (by rw [h]; rfl))]

/-- Witness for C2: the provenance map is empty (so both pools are empty
even though `shuffle` is on), and the call returns the fallback's output. -/
theorem c2_fallback_witness :
    tb_rand_idx_sh idshuffle true [] = []
    ∧ triple_balance fs0 idshuffle X0 y0 train0 fk0 [] 1 true 10 1 (6/10) (15/100)
        = .ok (fs0 X0 y0 train0, fk0, []) :=
  ⟨rfl, c2_fallback fs0 idshuffle X0 y0 train0 fk0 [] 1 true 10 1 (6/10) (15/100)
    (Or.inl rfl)⟩

/-- Claim C10: on the triple-balance path (both zero groups non-empty) with
no positive in `train_idx` and an `epochs` key present, `triple_balance`
raises (an uncaught `ZeroDivisionError`: either inside `_get_triple_dist` or
at the `efrac_one = n_one_epoch/n_one = 0/0` computation), rather than
returning a schedule or falling back. -/
theorem c10_no_ones_raises
    (full_sample : List ℤ → List ℤ → List ℤ → List ℤ × List ℤ)
    (σ : ℕ → List ℤ → List ℤ) (X y train_idx : List ℤ)
    (fit_kwargs : List (String × ℤ)) (query_src : List (String × List ℤ))
    (pref_epochs : ℤ) (shuffle : Bool) (b α β δ : ℝ)
    (hzr : tb_zero_rand_idx σ shuffle y query_src ≠ [])
    (hzm : tb_zero_max_idx σ shuffle y query_src ≠ [])
    (hone : tb_one_idx y train_idx = [])
    (hep : (fit_kwargs.lookup "epochs").isSome) :
    ∃ e, triple_balance full_sample σ X y train_idx fit_kwargs query_src
        pref_epochs shuffle b α β δ = .error e := by
  have hA : ¬((tb_rand_idx_sh σ shuffle query_src).length = 0
      ∨ (tb_max_idx_sh σ shuffle query_src).length = 0) := by
    push_neg
    constructor
    · intro hl
      apply hzr
      rw [tb_zero_rand_idx, List.length_eq_zero.mp hl]
      rfl
    · intro hl
      apply hzm
      rw [tb_zero_max_idx, List.length_eq_zero.mp hl]
      rfl
  rw [triple_balance, if_neg hA]
  simp only []
  rw [if_neg (by
    push_neg
    exact ⟨fun hl => hzr (List.length_eq_zero.mp hl),
      fun hl => hzm (List.length_eq_zero.mp hl)⟩)]
  cases hd : _get_triple_dist ((tb_one_idx y train_idx).length : ℤ)
      ((tb_zero_rand_idx σ shuffle y query_src).length : ℤ)
      ((tb_zero_max_idx σ shuffle y query_src).length : ℤ) (y.length : ℤ) b α β δ with
  | error e =>
    exact ⟨e, rfl⟩
  | ok d =>
    simp only []
    have hn0 : ((tb_one_idx y train_idx).length : ℤ) = 0 := by rw [hone]; rfl
    have hse : tb_set_epochs fit_kwargs ((tb_one_idx y train_idx).length : ℤ)
        ((tb_zero_rand_idx σ shuffle y query_src).length : ℤ)
        ((tb_zero_max_idx σ shuffle y query_src).length : ℤ) d
        (tb_n_mini ((tb_one_idx y train_idx).length : ℤ)
          ((tb_zero_rand_idx σ shuffle y query_src).length : ℤ)
          ((tb_zero_max_idx σ shuffle y query_src).length : ℤ) d) pref_epochs
        = .error "ZeroDivisionError" := by
      rw [tb_set_epochs, if_pos hep, if_pos hn0]
    rw [hse]
    exact ⟨"ZeroDivisionError", rfl⟩

/-- Witness for C10: a pool with no positive at all, non-empty zero groups
and an `epochs` key: the call errors out. -/
theorem c10_no_ones_raises_witness :
    tb_one_idx y1 train0 = []
    ∧ tb_zero_rand_idx idshuffle false y1 qs0 ≠ []
    ∧ ∃ e, triple_balance fs0 idshuffle X0 y1 train0 fk0 qs0 1 false 1 1 1 (1/2)
        = .error e :=
  ⟨by decide, by decide,
    c10_no_ones_raises fs0 idshuffle X0 y1 train0 fk0 qs0 1 false 1 1 1 (1/2)
      (by decide) (by decide) (by decide) (by decide)⟩

/-- Claim C4 (code evaluation): with `shuffle = True` and a shuffle oracle
that genuinely permutes (`revshuffle` reverses, and reversing the two-element
`"max"` pool visibly changes it), the provenance map the caller observes
after the call is the unchanged input `qs1`: the source shuffles fresh
copies (`np.array`/`np.append` allocate new arrays) and, despite its own
`# Write them back for next round.` comment, never stores them back into
`query_kwargs["query_src"]`. -/
theorem c4_query_src_not_written_back :
    triple_balance fs0 revshuffle X0 y2 train0 fk0 qs1 1 true 10 1 1 (1/2)
      = .ok (fs0 X0 y2 train0, fk0, qs1)
    ∧ revshuffle 1 (tb_max_idx qs1) ≠ tb_max_idx qs1 := by
  refine ⟨?_, by decide⟩
  rw [triple_balance, if_neg (by decide)]
  simp only []
  rw [if_pos (by decide)]

/-- Non-empty zero groups force non-empty candidate pools (fallback
condition A is not taken). -/
theorem pools_nonempty (σ : ℕ → List ℤ → List ℤ) (shuffle : Bool)
    (y : List ℤ) (query_src : List (String × List ℤ))
    (hzr : tb_zero_rand_idx σ shuffle y query_src ≠ [])
    (hzm : tb_zero_max_idx σ shuffle y query_src ≠ []) :
    ¬((tb_rand_idx_sh σ shuffle query_src).length = 0
      ∨ (tb_max_idx_sh σ shuffle query_src).length = 0) := by
  push_neg
  constructor
  · intro hl
    apply hzr
    rw [tb_zero_rand_idx, List.length_eq_zero.mp hl]
    rfl
  · intro hl
    apply hzm
    rw [tb_zero_max_idx, List.length_eq_zero.mp hl]
    rfl

/-- Non-empty zero groups mean fallback condition B is not taken either. -/
theorem zero_pools_nonempty (σ : ℕ → List ℤ → List ℤ) (shuffle : Bool)
    (y : List ℤ) (query_src : List (String × List ℤ))
    (hzr : tb_zero_rand_idx σ shuffle y query_src ≠ [])
    (hzm : tb_zero_max_idx σ shuffle y query_src ≠ []) :
    ¬((tb_zero_rand_idx σ shuffle y query_src).length = 0
      ∨ (tb_zero_max_idx σ shuffle y query_src).length = 0) := by
  push_neg
  exact ⟨fun hl => hzr (List.length_eq_zero.mp hl),
    fun hl => hzm (List.length_eq_zero.mp hl)⟩

/-- A successful epochs rewrite (with the key present) stores
`ceil(pref_epochs / (1.0 * n_mini_epoch))` under every `epochs` entry, and
can only succeed when `n_mini_epoch ≠ 0`. -/
theorem set_epochs_ok (fk fk' : List (String × ℤ)) (n1 nr nm : ℤ)
    (d : ℤ × ℤ × ℤ) (M pe : ℤ)
    (hep : (fk.lookup "epochs").isSome)
    (h : tb_set_epochs fk n1 nr nm d M pe = .ok fk') :
    fk' = fk.map (fun kv => if kv.1 = "epochs"
        then ("epochs", ⌈(pe : ℝ) / ((1 : ℝ) * (M : ℝ))⌉) else kv)
    ∧ M ≠ 0 := by
  rw [tb_set_epochs, if_pos hep] at h
  by_cases h1 : n1 = 0
  · rw [if_pos h1] at h
    simp at h
  · rw [if_neg h1] at h
    simp only [] at h
    by_cases h2 : nr = 0
    · rw [if_pos h2] at h
      simp at h
    · rw [if_neg h2] at h
      by_cases h3 : (1 : ℝ) * (M : ℝ) = 0
      · rw [if_pos h3] at h
        simp at h
      · rw [if_neg h3] at h
        refine ⟨(Except.ok.inj h).symm, ?_⟩
        intro hM
        apply h3
        rw [hM]
        norm_num

/-- Frame property of the epochs rewrite: keys are unchanged, non-`epochs`
values are unchanged, and nothing at all changes when `epochs` is absent. -/
theorem set_epochs_frame (fk fk' : List (String × ℤ)) (n1 nr nm : ℤ)
    (d : ℤ × ℤ × ℤ) (M pe : ℤ)
    (h : tb_set_epochs fk n1 nr nm d M pe = .ok fk') :
    fk'.map Prod.fst = fk.map Prod.fst
    ∧ (∀ k, k ≠ "epochs" → fk'.lookup k = fk.lookup k)
    ∧ (fk.lookup "epochs" = none → fk' = fk) := by
  by_cases hep : (fk.lookup "epochs").isSome
  · obtain ⟨hfk', -⟩ := set_epochs_ok fk fk' n1 nr nm d M pe hep h
    subst hfk'
    refine ⟨map_epochs_keys fk _, fun k hk => map_epochs_lookup_ne fk _ k hk, ?_⟩
    intro hnone
    rw [hnone] at hep
    simp at hep
  · rw [tb_set_epochs, if_neg hep] at h
    obtain rfl : fk = fk' := Except.ok.inj h
    exact ⟨rfl, fun _ _ => rfl, fun _ => rfl⟩

/-- Claim C1: on the triple-balance path, with every shuffle a permutation
and the three per-mini-epoch counts returned by the sizing step
non-negative, the built index sequence `all_idx` — and hence each component
of the returned `(X[all_idx], y[all_idx])` pair — has length exactly
`n_mini_epoch * (n_one_epoch + n_zero_rand_epoch + n_zero_max_epoch)`. -/
theorem c1_schedule_length (σ : ℕ → List ℤ → List ℤ) (y train_idx : List ℤ)
    (query_src : List (String × List ℤ)) (shuffle : Bool) (b α β δ : ℝ)
    (d : ℤ × ℤ × ℤ)
    (hσ : ∀ k l, (σ k l).length = l.length)
    (hzr : tb_zero_rand_idx σ shuffle y query_src ≠ [])
    (hzm : tb_zero_max_idx σ shuffle y query_src ≠ [])
    (hd : _get_triple_dist ((tb_one_idx y train_idx).length : ℤ)
        ((tb_zero_rand_idx σ shuffle y query_src).length : ℤ)
        ((tb_zero_max_idx σ shuffle y query_src).length : ℤ) (y.length : ℤ)
        b α β δ = .ok d)
    (h1 : 0 ≤ d.1) (h2 : 0 ≤ d.2.1) (h3 : 0 ≤ d.2.2) :
    ((tb_all_idx σ shuffle (tb_one_idx y train_idx)
        (tb_zero_rand_idx σ shuffle y query_src)
        (tb_zero_max_idx σ shuffle y query_src) d).length : ℤ)
      = tb_n_mini ((tb_one_idx y train_idx).length : ℤ)
          ((tb_zero_rand_idx σ shuffle y query_src).length : ℤ)
          ((tb_zero_max_idx σ shuffle y query_src).length : ℤ) d
        * (d.1 + d.2.1 + d.2.2)
    ∧ ∀ (full_sample : List ℤ → List ℤ → List ℤ → List ℤ × List ℤ)
        (X : List ℤ) (fit_kwargs : List (String × ℤ)) (pref_epochs : ℤ)
        (r : (List ℤ × List ℤ) × List (String × ℤ) × List (String × List ℤ)),
        triple_balance full_sample σ X y train_idx fit_kwargs query_src
            pref_epochs shuffle b α β δ = .ok r →
        (r.1.1.length : ℤ)
            = tb_n_mini ((tb_one_idx y train_idx).length : ℤ)
                ((tb_zero_rand_idx σ shuffle y query_src).length : ℤ)
                ((tb_zero_max_idx σ shuffle y query_src).length : ℤ) d
              * (d.1 + d.2.1 + d.2.2)
          ∧ (r.1.2.length : ℤ)
            = tb_n_mini ((tb_one_idx y train_idx).length : ℤ)
                ((tb_zero_rand_idx σ shuffle y query_src).length : ℤ)
                ((tb_zero_max_idx σ shuffle y query_src).length : ℤ) d
              * (d.1 + d.2.1 + d.2.2) := by
  have hone : d.1 = ((tb_one_idx y train_idx).length : ℤ) :=
    dist_fst _ _ _ _ _ _ _ _ _ hd
  have hlen := tb_all_idx_length σ shuffle (tb_one_idx y train_idx)
    (tb_zero_rand_idx σ shuffle y query_src)
    (tb_zero_max_idx σ shuffle y query_src) d hσ hzr hzm hone h1 h2 h3
  refine ⟨hlen, ?_⟩
  intro full_sample X fit_kwargs pref_epochs r htb
  rw [triple_balance, if_neg (pools_nonempty σ shuffle y query_src hzr hzm)] at htb
  simp only [] at htb
  rw [if_neg (zero_pools_nonempty σ shuffle y query_src hzr hzm)] at htb
  rw [hd] at htb
  simp only [] at htb
  cases hse : tb_set_epochs fit_kwargs ((tb_one_idx y train_idx).length : ℤ)
      ((tb_zero_rand_idx σ shuffle y query_src).length : ℤ)
      ((tb_zero_max_idx σ shuffle y query_src).length : ℤ) d
      (tb_n_mini ((tb_one_idx y train_idx).length : ℤ)
        ((tb_zero_rand_idx σ shuffle y query_src).length : ℤ)
        ((tb_zero_max_idx σ shuffle y query_src).length : ℤ) d) pref_epochs with
  | error e =>
    rw [hse] at htb
    simp at htb
  | ok fk' =>
    rw [hse] at htb
    simp only [] at htb
    rw [← Except.ok.inj htb]
    constructor
    · show (((fancy X (tb_all_idx σ shuffle (tb_one_idx y train_idx)
        (tb_zero_rand_idx σ shuffle y query_src)
        (tb_zero_max_idx σ shuffle y query_src) d)).length : ℕ) : ℤ) = _
      rw [fancy, List.length_map]
      exact hlen
    · show (((fancy y (tb_all_idx σ shuffle (tb_one_idx y train_idx)
        (tb_zero_rand_idx σ shuffle y query_src)
        (tb_zero_max_idx σ shuffle y query_src) d)).length : ℕ) : ℤ) = _
      rw [fancy, List.length_map]
      exact hlen

/-- Witness for C1 on the 4-sample example: schedule `[2, 1, 0]` of length
`3 = 1 * (1 + 1 + 1)`. -/
theorem c1_schedule_length_witness :
    tb_zero_rand_idx idshuffle false y0 qs0 ≠ []
    ∧ ((tb_all_idx idshuffle false (tb_one_idx y0 train0)
          (tb_zero_rand_idx idshuffle false y0 qs0)
          (tb_zero_max_idx idshuffle false y0 qs0) (1, 1, 1)).length : ℤ)
        = tb_n_mini ((tb_one_idx y0 train0).length : ℤ)
            ((tb_zero_rand_idx idshuffle false y0 qs0).length : ℤ)
            ((tb_zero_max_idx idshuffle false y0 qs0).length : ℤ) (1, 1, 1)
          * ((1 : ℤ) + 1 + 1) := by
  constructor
  · decide
  · exact (c1_schedule_length idshuffle y0 train0 qs0 false 1 1 1 (1/2) (1, 1, 1)
      (fun k l => rfl) (by decide) (by decide)
      (by
        have e1 : ((tb_one_idx y0 train0).length : ℤ) = 1 := by decide
        have e2 : ((tb_zero_rand_idx idshuffle false y0 qs0).length : ℤ) = 1 := by decide
        have e3 : ((tb_zero_max_idx idshuffle false y0 qs0).length : ℤ) = 1 := by decide
        have e4 : ((y0.length : ℕ) : ℤ) = 4 := by decide
        rw [e1, e2, e3, e4]
        exact dist_eval0)
      (by norm_num) (by norm_num) (by norm_num)).1

/-- Claim C3: on the triple-balance path with an `epochs` key present, every
successful call stores exactly `ceil(pref_epochs / n_mini_epoch)` under
`epochs`: the computed effective fraction has no influence, since the
constant `1.0` replaces it before use. -/
theorem c3_epochs_override
    (full_sample : List ℤ → List ℤ → List ℤ → List ℤ × List ℤ)
    (σ : ℕ → List ℤ → List ℤ) (X y train_idx : List ℤ)
    (fit_kwargs : List (String × ℤ)) (query_src : List (String × List ℤ))
    (pref_epochs : ℤ) (shuffle : Bool) (b α β δ : ℝ) (d : ℤ × ℤ × ℤ)
    (r : (List ℤ × List ℤ) × List (String × ℤ) × List (String × List ℤ))
    (hzr : tb_zero_rand_idx σ shuffle y query_src ≠ [])
    (hzm : tb_zero_max_idx σ shuffle y query_src ≠ [])
    (hd : _get_triple_dist ((tb_one_idx y train_idx).length : ℤ)
        ((tb_zero_rand_idx σ shuffle y query_src).length : ℤ)
        ((tb_zero_max_idx σ shuffle y query_src).length : ℤ) (y.length : ℤ)
        b α β δ = .ok d)
    (hep : (fit_kwargs.lookup "epochs").isSome)
    (htb : triple_balance full_sample σ X y train_idx fit_kwargs query_src
        pref_epochs shuffle b α β δ = .ok r) :
    r.2.1.lookup "epochs"
      = some ⌈(pref_epochs : ℝ) /
          ((tb_n_mini ((tb_one_idx y train_idx).length : ℤ)
            ((tb_zero_rand_idx σ shuffle y query_src).length : ℤ)
            ((tb_zero_max_idx σ shuffle y query_src).length : ℤ) d : ℤ) : ℝ)⌉ := by
  rw [triple_balance, if_neg (pools_nonempty σ shuffle y query_src hzr hzm)] at htb
  simp only [] at htb
  rw [if_neg (zero_pools_nonempty σ shuffle y query_src hzr hzm)] at htb
  rw [hd] at htb
  simp only [] at htb
  cases hse : tb_set_epochs fit_kwargs ((tb_one_idx y train_idx).length : ℤ)
      ((tb_zero_rand_idx σ shuffle y query_src).length : ℤ)
      ((tb_zero_max_idx σ shuffle y query_src).length : ℤ) d
      (tb_n_mini ((tb_one_idx y train_idx).length : ℤ)
        ((tb_zero_rand_idx σ shuffle y query_src).length : ℤ)
        ((tb_zero_max_idx σ shuffle y query_src).length : ℤ) d) pref_epochs with
  | error e =>
    rw [hse] at htb
    simp at htb
  | ok fk' =>
    rw [hse] at htb
    simp only [] at htb
    obtain ⟨hfk', -⟩ := set_epochs_ok _ _ _ _ _ _ _ _ hep hse
    have hr21 : r.2.1 = fk' := by rw [← Except.ok.inj htb]
    rw [hr21, hfk', map_epochs_lookup_eq fit_kwargs _ hep]
    congr 2
    rw [one_mul]

/-- Witness for C3 on the 4-sample example: `epochs` is overwritten with
`ceil(1 / n_mini_epoch)`. -/
theorem c3_epochs_override_witness :
    (fk0.lookup "epochs").isSome = true
    ∧ List.lookup "epochs" [("epochs", (1 : ℤ)), ("verbose", 1)]
      = some ⌈((1 : ℤ) : ℝ) /
          ((tb_n_mini ((tb_one_idx y0 train0).length : ℤ)
            ((tb_zero_rand_idx idshuffle false y0 qs0).length : ℤ)
            ((tb_zero_max_idx idshuffle false y0 qs0).length : ℤ) (1, 1, 1) : ℤ) : ℝ)⌉ :=
  ⟨by decide,
   c3_epochs_override fs0 idshuffle X0 y0 train0 fk0 qs0 1 false 1 1 1 (1/2)
    (1, 1, 1) (([12, 11, 10], [1, 0, 0]), [("epochs", 1), ("verbose", 1)], qs0)
    (by decide) (by decide)
    (by
      have e1 : ((tb_one_idx y0 train0).length : ℤ) = 1 := by decide
      have e2 : ((tb_zero_rand_idx idshuffle false y0 qs0).length : ℤ) = 1 := by decide
      have e3 : ((tb_zero_max_idx idshuffle false y0 qs0).length : ℤ) = 1 := by decide
      have e4 : ((y0.length : ℕ) : ℤ) = 4 := by decide
      rw [e1, e2, e3, e4]
      exact dist_eval0)
    (by decide) tb_eval0⟩

/-- Claim C9: every successful call leaves the fit configuration unchanged
except at the `epochs` key: the key sequence is identical, every other
key's value is identical, and when `epochs` was absent the configuration is
returned exactly as given (the embedding is pure, so `X`, `y` and
`train_idx` are values and cannot be modified). -/
theorem c9_fit_kwargs_frame
    (full_sample : List ℤ → List ℤ → List ℤ → List ℤ × List ℤ)
    (σ : ℕ → List ℤ → List ℤ) (X y train_idx : List ℤ)
    (fit_kwargs : List (String × ℤ)) (query_src : List (String × List ℤ))
    (pref_epochs : ℤ) (shuffle : Bool) (b α β δ : ℝ)
    (r : (List ℤ × List ℤ) × List (String × ℤ) × List (String × List ℤ))
    (htb : triple_balance full_sample σ X y train_idx fit_kwargs query_src
        pref_epochs shuffle b α β δ = .ok r) :
    r.2.1.map Prod.fst = fit_kwargs.map Prod.fst
    ∧ (∀ k, k ≠ "epochs" → r.2.1.lookup k = fit_kwargs.lookup k)
    ∧ (fit_kwargs.lookup "epochs" = none → r.2.1 = fit_kwargs) := by
  rw [triple_balance] at htb
  by_cases hA : (tb_rand_idx_sh σ shuffle query_src).length = 0
      ∨ (tb_max_idx_sh σ shuffle query_src).length = 0
  · rw [if_pos hA] at htb
    rw [← Except.ok.inj htb]
    exact ⟨rfl, fun _ _ => rfl, fun _ => rfl⟩
  · rw [if_neg hA] at htb
    simp only [] at htb
    by_cases hB : (tb_zero_rand_idx σ shuffle y query_src).length = 0
        ∨ (tb_zero_max_idx σ shuffle y query_src).length = 0
    · rw [if_pos hB] at htb
      rw [← Except.ok.inj htb]
      exact ⟨rfl, fun _ _ => rfl, fun _ => rfl⟩
    · rw [if_neg hB] at htb
      cases hdist : _get_triple_dist ((tb_one_idx y train_idx).length : ℤ)
          ((tb_zero_rand_idx σ shuffle y query_src).length : ℤ)
          ((tb_zero_max_idx σ shuffle y query_src).length : ℤ) (y.length : ℤ)
          b α β δ with
      | error e =>
        rw [hdist] at htb
        simp at htb
      | ok d =>
        rw [hdist] at htb
        simp only [] at htb
        cases hse : tb_set_epochs fit_kwargs ((tb_one_idx y train_idx).length : ℤ)
            ((tb_zero_rand_idx σ shuffle y query_src).length : ℤ)
            ((tb_zero_max_idx σ shuffle y query_src).length : ℤ) d
            (tb_n_mini ((tb_one_idx y train_idx).length : ℤ)
              ((tb_zero_rand_idx σ shuffle y query_src).length : ℤ)
              ((tb_zero_max_idx σ shuffle y query_src).length : ℤ) d) pref_epochs with
        | error e =>
          rw [hse] at htb
          simp at htb
        | ok fk' =>
          rw [hse] at htb
          simp only [] at htb
          rw [← Except.ok.inj htb]
          exact set_epochs_frame _ _ _ _ _ _ _ _ hse

/-- Witness for C9 on the 4-sample example: keys `epochs, verbose` preserved,
`verbose` value untouched. -/
theorem c9_fit_kwargs_frame_witness :
    List.map Prod.fst [("epochs", (1 : ℤ)), ("verbose", 1)] = List.map Prod.fst fk0
    ∧ (∀ k, k ≠ "epochs" →
        List.lookup k [("epochs", (1 : ℤ)), ("verbose", 1)] = List.lookup k fk0)
    ∧ (List.lookup "epochs" fk0 = none → [("epochs", (1 : ℤ)), ("verbose", 1)] = fk0) :=
  c9_fit_kwargs_frame fs0 idshuffle X0 y0 train0 fk0 qs0 1 false 1 1 1 (1/2)
    (([12, 11, 10], [1, 0, 0]), [("epochs", 1), ("verbose", 1)], qs0) tb_eval0
